import Mathlib

/-!
Shallow embedding of the task-management backend: domain entities
(Task, Category, User), the task factory and task service, the
Mongo-backed repositories, the HTTP task controller, the
authentication service, and the database reconnect handler.

Modelling conventions:
* JavaScript `Date` values are natural numbers (milliseconds since the
  epoch); every operation that reads the clock receives the current
  value `now` as an explicit argument.
* Thrown exceptions are `Except String`, the string being the
  `Error` message.
* The MongoDB task collection is a list of documents (`Store`);
  generated ObjectIds are passed in as explicit `genId` arguments.
* JavaScript truthiness on optional string fields
  (`if (updates.setTitle) ...`) is `some s` with `s ≠ ""`; enum
  values, category objects and dates are always truthy.
-/

namespace TaskMgt

/-- JavaScript `String.prototype.trim()`: removes leading and trailing
whitespace. Implemented structurally on the character list so that it
evaluates inside the kernel (core `String.trim` is defined by
well-founded position recursion and does not reduce). -/
def jsTrim (s : String) : String :=
  ⟨((s.data.dropWhile Char.isWhitespace).reverse.dropWhile Char.isWhitespace).reverse⟩

/-- Decidable equality for `Except`, used to evaluate concrete runs. -/
instance {ε α : Type} [DecidableEq ε] [DecidableEq α] : DecidableEq (Except ε α) := fun x y =>
  match x, y with
  | .error e, .error e' =>
    if h : e = e' then isTrue (by rw [h]) else isFalse (by intro hc; cases hc; exact h rfl)
  | .error _, .ok _ => isFalse (by intro h; cases h)
  | .ok _, .error _ => isFalse (by intro h; cases h)
  | .ok a, .ok a' =>
    if h : a = a' then isTrue (by rw [h]) else isFalse (by intro hc; cases hc; exact h rfl)

/-- Task status, from TaskEnum.ts (string enum `TODO` / `IN_PROGRESS` / `DONE`). -/
inductive TaskStatus where
  | TODO
  | IN_PROGRESS
  | DONE
  deriving DecidableEq, Repr

/-- Task priority, from TaskEnum.ts (string enum `LOW` / `MEDIUM` / `HIGH`). -/
inductive TaskPriority where
  | LOW
  | MEDIUM
  | HIGH
  deriving DecidableEq, Repr

/-- Category value object, from Category.ts: a name and an optional
description (`description?: string`, so `Option String`). -/
structure Category where
  name : String
  description : Option String
  deriving DecidableEq, Repr

/-- Category.equals: `this.name === other.name && this.description ===
other.description` (in JS, `undefined === undefined` is true, matching
equality on `Option String`). -/
def Category.equals (a b : Category) : Bool :=
  a.name == b.name && a.description == b.description

/-- The Task entity, from Task.ts: all constructor fields. -/
structure Task where
  id : String
  title : String
  description : String
  status : TaskStatus
  priority : TaskPriority
  dueDate : Nat
  createdByUserId : String
  category : Category
  createdAt : Nat
  updatedAt : Nat
  deriving DecidableEq, Repr

namespace Task

/-- Task.setTitle: assigns the title and stamps `updatedAt = new Date()`. -/
def setTitle (t : Task) (title : String) (now : Nat) : Task :=
  { t with title := title, updatedAt := now }

/-- Task.setDescription: assigns the description and stamps `updatedAt`. -/
def setDescription (t : Task) (description : String) (now : Nat) : Task :=
  { t with description := description, updatedAt := now }

/-- Task.setStatus: assigns the status and stamps `updatedAt`. -/
def setStatus (t : Task) (status : TaskStatus) (now : Nat) : Task :=
  { t with status := status, updatedAt := now }

/-- Task.setPriority: assigns the priority and stamps `updatedAt`. -/
def setPriority (t : Task) (priority : TaskPriority) (now : Nat) : Task :=
  { t with priority := priority, updatedAt := now }

/-- Task.setDueDate: assigns the due date and stamps `updatedAt`. -/
def setDueDate (t : Task) (dueDate : Nat) (now : Nat) : Task :=
  { t with dueDate := dueDate, updatedAt := now }

/-- Task.setCategory: assigns the category and stamps `updatedAt`. -/
def setCategory (t : Task) (category : Category) (now : Nat) : Task :=
  { t with category := category, updatedAt := now }

end Task

namespace TaskFactory

/-- TaskFactory.validateTaskInput. The checks run in source order:
title, description, due date, user id. The `!(dueDate instanceof
Date) || isNaN(dueDate.getTime())` branch is unrepresentable here
because every `Nat` models a valid `Date`. `!title` (JS falsiness of
the empty string) is subsumed by the `trim().length === 0` check. -/
def validateTaskInput (now : Nat) (createdByUserId title description : String)
    (dueDate : Nat) : Except String Unit :=
  if (jsTrim title).length == 0 then .error "Task title cannot be empty"
  else if (jsTrim description).length == 0 then .error "Task description cannot be empty"
  else if dueDate < now then .error "Due date cannot be in the past"
  else if (jsTrim createdByUserId).length == 0 then .error "User ID cannot be empty"
  else .ok ()

/-- TaskFactory.createTask: validates the input, then constructs the
task with id `generateTaskId()` (modelled by `genId`), trimmed title
and description, status TODO, the given priority (default MEDIUM),
and `createdAt`/`updatedAt` both read from the clock. -/
def createTask (genId : String) (now : Nat) (title description : String)
    (dueDate : Nat) (createdByUserId : String) (category : Category)
    (priority : TaskPriority := TaskPriority.MEDIUM) : Except String Task :=
  match validateTaskInput now createdByUserId title description dueDate with
  | .error e => .error e
  | .ok _ =>
    .ok { id := genId
          title := jsTrim title
          description := jsTrim description
          status := TaskStatus.TODO
          priority := priority
          dueDate := dueDate
          createdByUserId := createdByUserId
          category := category
          createdAt := now
          updatedAt := now }

end TaskFactory

/-- A task document in the MongoDB collection, from TaskModel.ts
(ITaskDocument): the schema fields plus the generated `_id`. -/
structure TaskDoc where
  _id : String
  title : String
  description : String
  status : TaskStatus
  priority : TaskPriority
  dueDate : Nat
  createdByUserId : String
  categoryName : String
  categoryDescription : Option String
  createdAt : Nat
  updatedAt : Nat
  deriving DecidableEq, Repr

/-- The task collection: a list of documents. MongoDB keeps `_id`
unique; theorems that depend on that state it as a `Nodup` hypothesis. -/
abbrev Store := List TaskDoc

/-- Replacement of the (first) document carrying the given `_id`,
the effect of `findByIdAndUpdate` on the collection. -/
def replaceFirstById : Store → String → TaskDoc → Store
  | [], _, _ => []
  | d :: ds, id, d' => if d._id == id then d' :: ds else d :: replaceFirstById ds id d'

/-- Removal of the (first) document carrying the given `_id`,
the effect of `findByIdAndDelete` on the collection. -/
def eraseFirstById : Store → String → Store
  | [], _ => []
  | d :: ds, id => if d._id == id then ds else d :: eraseFirstById ds id

namespace MongoDBTaskRepository

/-- MongoDBTaskRepository.mapToTask: document to domain entity. -/
def mapToTask (d : TaskDoc) : Task :=
  { id := d._id
    title := d.title
    description := d.description
    status := d.status
    priority := d.priority
    dueDate := d.dueDate
    createdByUserId := d.createdByUserId
    category := { name := d.categoryName, description := d.categoryDescription }
    createdAt := d.createdAt
    updatedAt := d.updatedAt }

/-- MongoDBTaskRepository.mapToDocument followed by `$set` on an
existing document: every field of the task except its id is written,
`updatedAt` is freshly stamped, and `_id` and `createdAt` are not part
of `mapToDocument`, so they keep the stored values. -/
def mapToDocument (t : Task) (now : Nat) (d : TaskDoc) : TaskDoc :=
  { _id := d._id
    title := t.title
    description := t.description
    status := t.status
    priority := t.priority
    dueDate := t.dueDate
    createdByUserId := t.createdByUserId
    categoryName := t.category.name
    categoryDescription := t.category.description
    createdAt := d.createdAt
    updatedAt := now }

/-- MongoDBTaskRepository.findById: `TaskModel.findById` then `mapToTask`,
null when no document carries the id. -/
def findById (store : Store) (id : String) : Option Task :=
  (store.find? (fun d => d._id == id)).map mapToTask

/-- MongoDBTaskRepository.findByUser: `TaskModel.find({ createdByUserId })`. -/
def findByUser (store : Store) (userId : String) : List Task :=
  (store.filter (fun d => d.createdByUserId == userId)).map mapToTask

/-- MongoDBTaskRepository.findByCategory: the query filters on
`'category.name'` alone; the category description takes no part. -/
def findByCategory (store : Store) (category : Category) : List Task :=
  (store.filter (fun d => d.categoryName == category.name)).map mapToTask

/-- MongoDBTaskRepository.findByCategoryAndUser: filters on
`createdByUserId` and `'category.name'`. -/
def findByCategoryAndUser (store : Store) (userId : String) (category : Category) :
    List Task :=
  (store.filter (fun d => d.createdByUserId == userId && d.categoryName == category.name)).map
    mapToTask

/-- MongoDBTaskRepository.save: with a non-empty id it runs
`findByIdAndUpdate` with `$set: mapToDocument(task)` and throws
`Task not found` when no document carries the id; with an empty id it
inserts a new document (generated `_id` modelled by `genId`, the
schema defaulting `createdAt` to the present). Returns the collection
after the write together with the document read back (`new: true`). -/
def save (store : Store) (t : Task) (genId : String) (now : Nat) :
    Except String (Store × Task) :=
  if t.id != "" then
    match store.find? (fun d => d._id == t.id) with
    | some d =>
      let d' := mapToDocument t now d
      .ok (replaceFirstById store t.id d', mapToTask d')
    | none => .error "Task not found"
  else
    let d : TaskDoc :=
      { _id := genId
        title := t.title
        description := t.description
        status := t.status
        priority := t.priority
        dueDate := t.dueDate
        createdByUserId := t.createdByUserId
        categoryName := t.category.name
        categoryDescription := t.category.description
        createdAt := now
        updatedAt := now }
    .ok (store ++ [d], mapToTask d)

/-- MongoDBTaskRepository.delete: `findByIdAndDelete`, throwing
`Task not found` when no document carries the id. -/
def delete (store : Store) (id : String) : Except String Store :=
  if (store.find? (fun d => d._id == id)).isSome then
    .ok (eraseFirstById store id)
  else
    .error "Task not found"

end MongoDBTaskRepository

/-- The `updates` argument of TaskService.updateTask: a `Partial` record
of setter values; absent fields are `none`. -/
structure TaskUpdates where
  setTitle : Option String := none
  setDescription : Option String := none
  setStatus : Option TaskStatus := none
  setPriority : Option TaskPriority := none
  setCategory : Option Category := none
  setDueDate : Option Nat := none
  deriving DecidableEq, Repr

namespace TaskService

/-- The setter cascade inside TaskService.updateTask. Each guard is
JavaScript truthiness on the supplied field: a string field is applied
only when present and non-empty, while status and priority (non-empty
string enum members), category (an object) and due date (a `Date`
object) are applied whenever present. -/
def applyUpdates (t : Task) (u : TaskUpdates) (now : Nat) : Task :=
  let t1 := match u.setTitle with
    | some s => if s == "" then t else t.setTitle s now
    | none => t
  let t2 := match u.setDescription with
    | some s => if s == "" then t1 else t1.setDescription s now
    | none => t1
  let t3 := match u.setStatus with
    | some st => t2.setStatus st now
    | none => t2
  let t4 := match u.setPriority with
    | some p => t3.setPriority p now
    | none => t3
  let t5 := match u.setCategory with
    | some c => t4.setCategory c now
    | none => t4
  match u.setDueDate with
  | some dd => t5.setDueDate dd now
  | none => t5

/-- TaskService.getTaskById: passes through to the repository. -/
def getTaskById (store : Store) (id : String) : Option Task :=
  MongoDBTaskRepository.findById store id

/-- TaskService.updateTask: fetches the task, throws `Task not found`
when absent, applies the guarded setters and saves the result. -/
def updateTask (store : Store) (id : String) (u : TaskUpdates) (genId : String)
    (now : Nat) : Except String (Store × Task) :=
  match MongoDBTaskRepository.findById store id with
  | none => .error "Task not found"
  | some task => MongoDBTaskRepository.save store (applyUpdates task u now) genId now

/-- TaskService.deleteTask: passes through to the repository. -/
def deleteTask (store : Store) (id : String) : Except String Store :=
  MongoDBTaskRepository.delete store id

end TaskService

namespace MarkTaskAsCompletedUseCase

/-- MarkTaskAsCompletedUseCase.execute: fetches the task, throws
`Task not found` when absent, sets its status to DONE in memory and
then calls TaskService.updateTask with every setter field filled from
the mutated task. -/
def execute (store : Store) (taskId : String) (genId : String) (now : Nat) :
    Except String (Store × Task) :=
  match TaskService.getTaskById store taskId with
  | none => .error "Task not found"
  | some task0 =>
    let task := task0.setStatus TaskStatus.DONE now
    TaskService.updateTask store taskId
      { setTitle := some task.title
        setDescription := some task.description
        setStatus := some task.status
        setPriority := some task.priority
        setCategory := some task.category
        setDueDate := some task.dueDate } genId now

end MarkTaskAsCompletedUseCase

namespace TaskController

/-- TaskController.markTaskAsCompleted: on success the updated task is
sent with the default status 200; a thrown error is caught and mapped
by string comparison, `Task not found` to 404 and anything else
to 500. Returns the HTTP status and the task collection afterwards. -/
def markTaskAsCompleted (store : Store) (id : String) (genId : String) (now : Nat) :
    Nat × Store :=
  match MarkTaskAsCompletedUseCase.execute store id genId now with
  | .ok (store', _) => (200, store')
  | .error msg => (if msg == "Task not found" then 404 else 500, store)

/-- TaskController.deleteTask: 204 on success; its catch block maps
every thrown `Error` to 500, with no string match on the message. -/
def deleteTask (store : Store) (id : String) : Nat × Store :=
  match TaskService.deleteTask store id with
  | .ok store' => (204, store')
  | .error _ => (500, store)

/-- TaskController.updateTask: responds 404 through an explicit
pre-check when the fetch returns null, 200 on success, and its catch
block maps every thrown `Error` to 400 irrespective of the message.
The serializer step only shapes the `updates` record, which is taken
here as already deserialized. -/
def updateTask (store : Store) (id : String) (u : TaskUpdates) (genId : String)
    (now : Nat) : Nat × Store :=
  match MongoDBTaskRepository.findById store id with
  | none => (404, store)
  | some _ =>
    match TaskService.updateTask store id u genId now with
    | .ok (store', _) => (200, store')
    | .error _ => (400, store)

end TaskController

/-- The User entity, from User.ts: constructor fields. -/
structure User where
  id : String
  username : String
  email : String
  passwordHash : String
  createdAt : Nat
  updatedAt : Nat
  deriving DecidableEq, Repr

namespace AuthenticationService

/-- The JWT payload built by AuthenticationService.generateToken. -/
structure TokenPayload where
  id : String
  email : String
  username : String
  deriving DecidableEq, Repr

/-- AuthenticationService.generateToken: signs the payload drawn from
the user. `sign` models `jwt.sign` with the configured secret and
expiry. -/
def generateToken (sign : TokenPayload → String) (user : User) : String :=
  sign { id := user.id, email := user.email, username := user.username }

/-- AuthenticationService.login. The user lookup
(`userService.getUserByEmail`, backed by `UserModel.findOne({email})`)
is the first stored user with the given email; `compare` models
`bcrypt.compare`. The whole body sits in a try block whose catch
rethrows every failure as `Authentication failed`, swallowing the
internal `User not found` and `Invalid password` errors. -/
def login (users : List User) (compare : String → String → Bool)
    (sign : TokenPayload → String) (email password : String) : Except String String :=
  let attempt : Except String String :=
    match users.find? (fun u => u.email == email) with
    | none => .error "User not found"
    | some user =>
      if compare password user.passwordHash then
        .ok (generateToken sign user)
      else
        .error "Invalid password"
  match attempt with
  | .ok token => .ok token
  | .error _ => .error "Authentication failed"

end AuthenticationService

namespace MongoPersistenceConnection

/-- Field `maxRetryAttempts` of MongoPersistenceConnection. -/
def maxRetryAttempts : Nat := 5

/-- Field `baseRetryInterval` of MongoPersistenceConnection (5000 ms). -/
def baseRetryInterval : Nat := 5000

/-- What one call of handleConnectionError does after updating its
state: schedule a reconnect after a delay, terminate the process, or
log and give up. -/
inductive ConnAction where
  | scheduleRetry (delayMs : Nat)
  | exitProcess
  | giveUp
  deriving DecidableEq, Repr

/-- MongoPersistenceConnection.handleConnectionError, as a transition
on the `retryAttempts` counter: below the cap it schedules a reconnect
after `baseRetryInterval * 2 ^ retryAttempts` milliseconds and
increments the counter; at the cap it schedules nothing and calls
`process.exit(1)` only when the environment is `development`,
otherwise it only logs. -/
def handleConnectionError (env : String) (retryAttempts : Nat) : ConnAction × Nat :=
  if retryAttempts < maxRetryAttempts then
    (ConnAction.scheduleRetry (baseRetryInterval * 2 ^ retryAttempts), retryAttempts + 1)
  else
    ((if env == "development" then ConnAction.exitProcess else ConnAction.giveUp),
      retryAttempts)

/-- The `retryAttempts` counter before the `(n+1)`-th consecutive call
of handleConnectionError, starting from a fresh connection
(`retryAttempts = 0`, never reset by a successful connect in between). -/
def nthRetryState (env : String) : Nat → Nat
  | 0 => 0
  | n + 1 => (handleConnectionError env (nthRetryState env n)).2

/-- The action taken by the `(n+1)`-th consecutive call of
handleConnectionError. -/
def nthAction (env : String) (n : Nat) : ConnAction :=
  (handleConnectionError env (nthRetryState env n)).1

end MongoPersistenceConnection

/-- The data-model invariant on stored tasks: non-empty title,
non-empty description, non-empty owner id. -/
def TaskInv (store : Store) : Prop :=
  ∀ d ∈ store, d.title ≠ "" ∧ d.description ≠ "" ∧ d.createdByUserId ≠ ""

/-- The task collection after one TaskService.updateTask call: the
written collection on success, the untouched one when the call threw. -/
def TaskService.runUpdateTask (store : Store) (id : String) (u : TaskUpdates)
    (genId : String) (now : Nat) : Store :=
  match TaskService.updateTask store id u genId now with
  | .ok (store', _) => store'
  | .error _ => store

/-- The task collection after a sequence of TaskService.updateTask
calls, each given by a task id, an updates record, a generated id and
a clock value. -/
def TaskService.runUpdates (store : Store) :
    List (String × TaskUpdates × String × Nat) → Store
  | [] => store
  | (id, u, genId, now) :: rest =>
    TaskService.runUpdates (TaskService.runUpdateTask store id u genId now) rest

/-- The task collection after MarkTaskAsCompletedUseCase.execute. -/
def MarkTaskAsCompletedUseCase.run (store : Store) (taskId genId : String) (now : Nat) :
    Store :=
  match MarkTaskAsCompletedUseCase.execute store taskId genId now with
  | .ok (store', _) => store'
  | .error _ => store

/-- A concrete stored document used to evaluate the theorems. -/
def demoDoc1 : TaskDoc :=
  { _id := "t1"
    title := "Write report"
    description := "Quarterly report"
    status := TaskStatus.TODO
    priority := TaskPriority.LOW
    dueDate := 50
    createdByUserId := "u1"
    categoryName := "work"
    categoryDescription := some "a"
    createdAt := 1
    updatedAt := 5 }

/-- A second concrete stored document. -/
def demoDoc2 : TaskDoc :=
  { demoDoc1 with _id := "t2", title := "Review", createdByUserId := "u2" }

/-- A concrete two-document collection used to evaluate the theorems. -/
def demoStore : Store := [demoDoc1, demoDoc2]

/-- The retry counter after `n` consecutive failures is `n` capped at 5. -/
theorem nthRetryState_eq (env : String) (n : Nat) :
    MongoPersistenceConnection.nthRetryState env n = min n 5 := by
  induction n with
  | zero => simp [MongoPersistenceConnection.nthRetryState]
  | succ n ih =>
    unfold MongoPersistenceConnection.nthRetryState
    rw [ih]
    unfold MongoPersistenceConnection.handleConnectionError
      MongoPersistenceConnection.maxRetryAttempts
    split_ifs with h <;> simp <;> omega

/-- Claim C8: starting from a fresh connection, the reconnect handler
schedules exactly five retries, the call after `n` previous failures
(the `(n+1)`-th retry, `n < 5`) being delayed by `5000 * 2 ^ n`
milliseconds; once the cap of 5 is reached it schedules no further
retry and terminates the process exactly when the environment is
`development`, otherwise it logs and gives up. -/
theorem reconnect_retry_schedule (env : String) (n : Nat) :
    MongoPersistenceConnection.nthAction env n =
      if n < 5 then
        MongoPersistenceConnection.ConnAction.scheduleRetry (5000 * 2 ^ n)
      else if env = "development" then
        MongoPersistenceConnection.ConnAction.exitProcess
      else
        MongoPersistenceConnection.ConnAction.giveUp := by
  unfold MongoPersistenceConnection.nthAction
  rw [nthRetryState_eq]
  unfold MongoPersistenceConnection.handleConnectionError
    MongoPersistenceConnection.maxRetryAttempts
    MongoPersistenceConnection.baseRetryInterval
  by_cases h : n < 5
  · have hm : min n 5 = n := by omega
    rw [hm]
    simp [h]
  · have hm : min n 5 = 5 := by omega
    rw [hm]
    by_cases he : env = "development" <;> simp [h, he]

/-- Claim C9: for every user table, password comparison, signer, email
and password, login either returns the token signed for the user whose
email matched and whose password verified, or throws exactly
`Authentication failed`; the internal `User not found` and
`Invalid password` errors never reach the caller. -/
theorem login_error_opacity (users : List User) (compare : String → String → Bool)
    (sign : AuthenticationService.TokenPayload → String) (email password : String) :
    ((∃ u, users.find? (fun x => x.email == email) = some u ∧
        compare password u.passwordHash = true ∧
        AuthenticationService.login users compare sign email password =
          .ok (AuthenticationService.generateToken sign u)) ∨
      AuthenticationService.login users compare sign email password =
        .error "Authentication failed") ∧
    AuthenticationService.login users compare sign email password ≠
      .error "User not found" ∧
    AuthenticationService.login users compare sign email password ≠
      .error "Invalid password" := by
  have hshape :
      (∃ u, users.find? (fun x => x.email == email) = some u ∧
        compare password u.passwordHash = true ∧
        AuthenticationService.login users compare sign email password =
          .ok (AuthenticationService.generateToken sign u)) ∨
      AuthenticationService.login users compare sign email password =
        .error "Authentication failed" := by
    cases hfind : users.find? (fun x => x.email == email) with
    | none =>
      right
      simp [AuthenticationService.login, hfind]
    | some u =>
      cases hcmp : compare password u.passwordHash with
      | false =>
        right
        simp [AuthenticationService.login, hfind, hcmp]
      | true =>
        left
        exact ⟨u, rfl, hcmp, by simp [AuthenticationService.login, hfind, hcmp]⟩
  have hne : ∀ msg, AuthenticationService.login users compare sign email password =
      .error msg → msg = "Authentication failed" := by
    intro msg hmsg
    rcases hshape with ⟨u, _, _, hok⟩ | herr
    · rw [hok] at hmsg
      cases hmsg
    · rw [herr] at hmsg
      cases hmsg
      rfl
  refine ⟨hshape, fun hcon => ?_, fun hcon => ?_⟩ <;>
    exact absurd (hne _ hcon) (by decide)

/-- Claim C3: task creation throws — and so constructs no task — when
the title trims to nothing, when the description trims to nothing, or
when the due date lies strictly before the clock at creation. -/
theorem createTask_invalid_input_fails (genId : String) (now : Nat)
    (title description : String) (dueDate : Nat) (createdByUserId : String)
    (category : Category) (priority : TaskPriority)
    (h : (jsTrim title).length = 0 ∨ (jsTrim description).length = 0 ∨ dueDate < now) :
    ∃ msg, TaskFactory.createTask genId now title description dueDate
      createdByUserId category priority = .error msg := by
  unfold TaskFactory.createTask TaskFactory.validateTaskInput
  split_ifs with h1 h2 h3 h4
  · exact ⟨_, rfl⟩
  · exact ⟨_, rfl⟩
  · exact ⟨_, rfl⟩
  · exact ⟨_, rfl⟩
  · simp only [beq_iff_eq] at h1 h2
    rcases h with h | h | h
    · exact absurd h h1
    · exact absurd h h2
    · exact absurd h h3

/-- Witness for C3 at a whitespace-only title. -/
theorem createTask_invalid_input_fails_witness :
    ((jsTrim "  ").length = 0 ∨ (jsTrim "desc").length = 0 ∨ (5 : Nat) < 0) ∧
    ∃ msg, TaskFactory.createTask "g" 0 "  " "desc" 5 "u" ⟨"work", none⟩
      TaskPriority.MEDIUM = .error msg :=
  ⟨Or.inl (by decide),
    createTask_invalid_input_fails "g" 0 "  " "desc" 5 "u" ⟨"work", none⟩
      TaskPriority.MEDIUM (Or.inl (by decide))⟩

/-- Claim C10: on valid input — title, description and user id that do
not trim to nothing, due date not before the clock — createTask
returns the task with status TODO, the given priority, the trimmed
title and description, and `createdAt` equal to `updatedAt`; when the
priority argument is omitted it defaults to MEDIUM. -/
theorem createTask_valid_output (genId : String) (now : Nat)
    (title description : String) (dueDate : Nat) (createdByUserId : String)
    (category : Category) (priority : TaskPriority)
    (ht : (jsTrim title).length ≠ 0) (hd : (jsTrim description).length ≠ 0)
    (hu : (jsTrim createdByUserId).length ≠ 0) (hdue : now ≤ dueDate) :
    TaskFactory.createTask genId now title description dueDate
        createdByUserId category priority =
      .ok { id := genId
            title := jsTrim title
            description := jsTrim description
            status := TaskStatus.TODO
            priority := priority
            dueDate := dueDate
            createdByUserId := createdByUserId
            category := category
            createdAt := now
            updatedAt := now } ∧
    TaskFactory.createTask genId now title description dueDate
        createdByUserId category =
      TaskFactory.createTask genId now title description dueDate
        createdByUserId category TaskPriority.MEDIUM := by
  refine ⟨?_, rfl⟩
  unfold TaskFactory.createTask TaskFactory.validateTaskInput
  split_ifs with h1 h2 h3 h4
  · exact absurd (by simpa using h1) ht
  · exact absurd (by simpa using h2) hd
  · omega
  · exact absurd (by simpa using h4) hu
  · rfl

/-- Witness for C10 at a concrete valid input. -/
theorem createTask_valid_output_witness :
    ((jsTrim " a ").length ≠ 0 ∧ (jsTrim "b").length ≠ 0 ∧
      (jsTrim "u").length ≠ 0 ∧ (3 : Nat) ≤ 7) ∧
    TaskFactory.createTask "g" 3 " a " "b" 7 "u" ⟨"work", none⟩ TaskPriority.HIGH =
      .ok { id := "g"
            title := "a"
            description := "b"
            status := TaskStatus.TODO
            priority := TaskPriority.HIGH
            dueDate := 7
            createdByUserId := "u"
            category := ⟨"work", none⟩
            createdAt := 3
            updatedAt := 3 } := by
  refine ⟨⟨by decide, by decide, by decide, by decide⟩, ?_⟩
  have h := (createTask_valid_output "g" 3 " a " "b" 7 "u" ⟨"work", none⟩
    TaskPriority.HIGH (by decide) (by decide) (by decide) (by decide)).1
  simpa using h

/-- Claim C5: updating a task id that the store does not hold throws
`Task not found`, and the store after the failed update is the store
before it. -/
theorem updateTask_missing_id_fails (store : Store) (id : String) (u : TaskUpdates)
    (genId : String) (now : Nat)
    (h : MongoDBTaskRepository.findById store id = none) :
    TaskService.updateTask store id u genId now = .error "Task not found" ∧
    TaskService.runUpdateTask store id u genId now = store := by
  have hupd : TaskService.updateTask store id u genId now = .error "Task not found" := by
    unfold TaskService.updateTask
    rw [h]
  exact ⟨hupd, by unfold TaskService.runUpdateTask; rw [hupd]⟩

/-- Witness for C5: the demo store holds no task with id `t9`. -/
theorem updateTask_missing_id_fails_witness :
    MongoDBTaskRepository.findById demoStore "t9" = none ∧
    TaskService.updateTask demoStore "t9" {} "g" 10 = .error "Task not found" ∧
    TaskService.runUpdateTask demoStore "t9" {} "g" 10 = demoStore :=
  ⟨by decide,
    (updateTask_missing_id_fails demoStore "t9" {} "g" 10 (by decide)).1,
    (updateTask_missing_id_fails demoStore "t9" {} "g" 10 (by decide)).2⟩

/-- Erasing the document with a given id leaves no document with that
id, provided the store's ids are distinct. -/
theorem find?_eraseFirstById_self (store : Store) (id : String)
    (hnodup : (store.map TaskDoc._id).Nodup) :
    (eraseFirstById store id).find? (fun d => d._id == id) = none := by
  induction store with
  | nil => rfl
  | cons d ds ih =>
    rw [List.map_cons, List.nodup_cons] at hnodup
    unfold eraseFirstById
    by_cases hd : (d._id == id) = true
    · rw [if_pos hd]
      rw [List.find?_eq_none]
      intro x hx hpx
      have hxid : x._id = id := by simpa using hpx
      have hdid : d._id = id := by simpa using hd
      exact hnodup.1 (by rw [hdid, ← hxid]; exact List.mem_map_of_mem _ hx)
    · rw [if_neg hd]
      rw [List.find?_cons_of_neg _ (by simpa using hd)]
      exact ih hnodup.2

/-- Erasing the document with one id does not change the lookup of any
other id. -/
theorem find?_eraseFirstById_ne (store : Store) (id id' : String) (hne : id' ≠ id) :
    (eraseFirstById store id).find? (fun d => d._id == id') =
      store.find? (fun d => d._id == id') := by
  induction store with
  | nil => rfl
  | cons d ds ih =>
    unfold eraseFirstById
    by_cases hd : (d._id == id) = true
    · rw [if_pos hd]
      have hdid : d._id = id := by simpa using hd
      have hpd : (d._id == id') = false := by
        simp only [hdid, beq_eq_false_iff_ne]
        exact fun hc => hne hc.symm
      simp [List.find?, hpd]
    · rw [if_neg hd]
      by_cases hd' : (d._id == id') = true
      · simp [List.find?, hd']
      · have hpd : (d._id == id') = false := by simpa using hd'
        simp only [List.find?, hpd]
        exact ih

/-- Claim C4: when deleting a task id succeeds, looking that id up in
the resulting store returns nothing, and the lookup of every other id
is unchanged. The ids of a MongoDB collection are distinct, stated
here as the `Nodup` hypothesis. -/
theorem delete_then_findById_none (store : Store) (id : String)
    (hok : (MongoDBTaskRepository.delete store id).isOk = true)
    (hnodup : (store.map TaskDoc._id).Nodup) :
    ∃ store', MongoDBTaskRepository.delete store id = .ok store' ∧
      MongoDBTaskRepository.findById store' id = none ∧
      ∀ id', id' ≠ id → MongoDBTaskRepository.findById store' id' =
        MongoDBTaskRepository.findById store id' := by
  unfold MongoDBTaskRepository.delete at hok ⊢
  by_cases hfound : ((store.find? (fun d => d._id == id)).isSome : Prop)
  · rw [if_pos hfound]
    refine ⟨eraseFirstById store id, rfl, ?_, ?_⟩
    · unfold MongoDBTaskRepository.findById
      rw [find?_eraseFirstById_self store id hnodup]
      rfl
    · intro id' hne
      unfold MongoDBTaskRepository.findById
      rw [find?_eraseFirstById_ne store id id' hne]
  · rw [if_neg hfound] at hok
    cases hok

/-- Witness for C4 on the demo store: deleting `t1` succeeds, `t1` is
gone, `t2` is returned unchanged. -/
theorem delete_then_findById_none_witness :
    ((MongoDBTaskRepository.delete demoStore "t1").isOk = true ∧
      (demoStore.map TaskDoc._id).Nodup) ∧
    ∃ store', MongoDBTaskRepository.delete demoStore "t1" = .ok store' ∧
      MongoDBTaskRepository.findById store' "t1" = none ∧
      ∀ id', id' ≠ "t1" → MongoDBTaskRepository.findById store' id' =
        MongoDBTaskRepository.findById demoStore id' :=
  ⟨⟨by decide, by decide⟩,
    delete_then_findById_none demoStore "t1" (by decide) (by decide)⟩

/-- Counterexample to C6 as stated: both demo documents carry category
name `work` with description `a`; querying with category
`⟨work, b⟩` — unequal as a value object to every stored category —
still returns both tasks, so the listing is not governed by
`Category.equals`. -/
theorem findByCategory_ignores_description :
    (MongoDBTaskRepository.findByCategory demoStore ⟨"work", some "b"⟩).map Task.id =
      ["t1", "t2"] ∧
    demoStore.all
      (fun d => !Category.equals (MongoDBTaskRepository.mapToTask d).category
        ⟨"work", some "b"⟩) = true := by decide

/-- Claim C6 (amended): listing by category returns exactly the stored
tasks whose category NAME equals the query's name — the category
description takes no part in the match — and the per-user variant
additionally requires the owning user id to equal the given user. -/
theorem findByCategory_matches_by_name (store : Store) (c : Category)
    (userId : String) (t : Task) :
    (t ∈ MongoDBTaskRepository.findByCategory store c ↔
      ∃ d, d ∈ store ∧ t = MongoDBTaskRepository.mapToTask d ∧
        d.categoryName = c.name) ∧
    (t ∈ MongoDBTaskRepository.findByCategoryAndUser store userId c ↔
      ∃ d, d ∈ store ∧ t = MongoDBTaskRepository.mapToTask d ∧
        d.createdByUserId = userId ∧ d.categoryName = c.name) := by
  constructor
  · simp only [MongoDBTaskRepository.findByCategory, List.mem_map, List.mem_filter,
      beq_iff_eq]
    constructor
    · rintro ⟨d, ⟨hmem, hname⟩, heq⟩
      exact ⟨d, hmem, heq.symm, hname⟩
    · rintro ⟨d, hmem, heq, hname⟩
      exact ⟨d, ⟨hmem, hname⟩, heq.symm⟩
  · simp only [MongoDBTaskRepository.findByCategoryAndUser, List.mem_map,
      List.mem_filter, Bool.and_eq_true, beq_iff_eq]
    constructor
    · rintro ⟨d, ⟨hmem, huser, hname⟩, heq⟩
      exact ⟨d, hmem, heq.symm, huser, hname⟩
    · rintro ⟨d, hmem, heq, huser, hname⟩
      exact ⟨d, ⟨hmem, huser, hname⟩, heq.symm⟩

/-- The setter cascade never touches the owner id, task id or creation
time, and it keeps a non-empty title or description non-empty: a
string setter fires only on a truthy (non-empty) value. -/
theorem applyUpdates_frame (t : Task) (u : TaskUpdates) (now : Nat) :
    (TaskService.applyUpdates t u now).createdByUserId = t.createdByUserId ∧
    (TaskService.applyUpdates t u now).id = t.id ∧
    (TaskService.applyUpdates t u now).createdAt = t.createdAt ∧
    (t.title ≠ "" → (TaskService.applyUpdates t u now).title ≠ "") ∧
    (t.description ≠ "" → (TaskService.applyUpdates t u now).description ≠ "") := by
  rcases u with ⟨ot, od, os, op, oc, odd⟩
  unfold TaskService.applyUpdates
  cases ot <;> cases od <;> cases os <;> cases op <;> cases oc <;> cases odd <;>
    · dsimp only [Task.setTitle, Task.setDescription, Task.setStatus, Task.setPriority,
        Task.setCategory, Task.setDueDate]
      try split_ifs <;> simp_all
      try simp_all

/-- Every document of the store after a first-match replacement is
either an original document or the replacement. -/
theorem mem_replaceFirstById (store : Store) (id : String) (d' x : TaskDoc)
    (hx : x ∈ replaceFirstById store id d') : x ∈ store ∨ x = d' := by
  induction store with
  | nil => cases hx
  | cons d ds ih =>
    unfold replaceFirstById at hx
    by_cases hd : (d._id == id) = true
    · rw [if_pos hd] at hx
      rcases List.mem_cons.mp hx with h | h
      · exact Or.inr h
      · exact Or.inl (List.mem_cons_of_mem _ h)
    · rw [if_neg hd] at hx
      rcases List.mem_cons.mp hx with h | h
      · exact Or.inl (h ▸ List.mem_cons_self _ _)
      · rcases ih h with h1 | h1
        · exact Or.inl (List.mem_cons_of_mem _ h1)
        · exact Or.inr h1

/-- One TaskService.updateTask call preserves the data-model invariant. -/
theorem updateTask_step_inv (store : Store) (id : String) (u : TaskUpdates)
    (genId : String) (now : Nat) (h : TaskInv store) :
    TaskInv (TaskService.runUpdateTask store id u genId now) := by
  unfold TaskService.runUpdateTask
  cases hupd : TaskService.updateTask store id u genId now with
  | error e => exact h
  | ok res =>
    obtain ⟨store', t'⟩ := res
    show TaskInv store'
    cases hfind : MongoDBTaskRepository.findById store id with
    | none =>
      simp only [TaskService.updateTask, hfind] at hupd
      cases hupd
    | some task =>
      simp only [TaskService.updateTask, hfind] at hupd
      have hd0 : ∃ d0, store.find? (fun d => d._id == id) = some d0 ∧
          task = MongoDBTaskRepository.mapToTask d0 := by
        unfold MongoDBTaskRepository.findById at hfind
        cases hf : store.find? (fun d => d._id == id) with
        | none =>
          rw [hf] at hfind
          cases hfind
        | some d0 =>
          rw [hf] at hfind
          exact ⟨d0, rfl, (Option.some.inj hfind).symm⟩
      rcases hd0 with ⟨d0, hf, htask⟩
      have hd0inv := h d0 (List.mem_of_find?_eq_some hf)
      have hframe := applyUpdates_frame task u now
      have hTuser : (TaskService.applyUpdates task u now).createdByUserId ≠ "" := by
        rw [hframe.1, htask]
        exact hd0inv.2.2
      have hTtitle : (TaskService.applyUpdates task u now).title ≠ "" :=
        hframe.2.2.2.1 (by rw [htask]; exact hd0inv.1)
      have hTdesc : (TaskService.applyUpdates task u now).description ≠ "" :=
        hframe.2.2.2.2 (by rw [htask]; exact hd0inv.2.1)
      unfold MongoDBTaskRepository.save at hupd
      by_cases hid : ((TaskService.applyUpdates task u now).id != "") = true
      · rw [if_pos hid] at hupd
        cases hfT : store.find?
            (fun d => d._id == (TaskService.applyUpdates task u now).id) with
        | none =>
          simp only [hfT] at hupd
          cases hupd
        | some dF =>
          simp only [hfT] at hupd
          have hpair := Except.ok.inj hupd
          injection hpair with h1 h2
          intro x hx
          rw [← h1] at hx
          rcases mem_replaceFirstById _ _ _ _ hx with hmem | hrepl
          · exact h x hmem
          · rw [hrepl]
            exact ⟨hTtitle, hTdesc, hTuser⟩
      · rw [if_neg hid] at hupd
        have hpair := Except.ok.inj hupd
        injection hpair with h1 h2
        intro x hx
        rw [← h1] at hx
        rcases List.mem_append.mp hx with hmem | hnew
        · exact h x hmem
        · rw [List.mem_singleton.mp hnew]
          exact ⟨hTtitle, hTdesc, hTuser⟩

/-- Claim C7: a store satisfying the data-model invariant — non-empty
title, description and owner id on every stored task — still satisfies
it after any sequence of TaskService.updateTask calls, whatever update
fields the calls supply. -/
theorem updateTask_preserves_invariant (store : Store)
    (cmds : List (String × TaskUpdates × String × Nat)) (h : TaskInv store) :
    TaskInv (TaskService.runUpdates store cmds) := by
  induction cmds generalizing store with
  | nil => exact h
  | cons c rest ih =>
    rcases c with ⟨id, u, genId, now⟩
    exact ih _ (updateTask_step_inv store id u genId now h)

/-- Witness for C7: the demo store satisfies the invariant and still
does after an update that tries to blank the title and another that
changes nothing. -/
theorem updateTask_preserves_invariant_witness :
    TaskInv demoStore ∧
    TaskInv (TaskService.runUpdates demoStore
      [("t1", { setTitle := some "" }, "g", 9), ("t2", {}, "g2", 11)]) :=
  ⟨by unfold TaskInv; decide, updateTask_preserves_invariant demoStore
    [("t1", { setTitle := some "" }, "g", 9), ("t2", {}, "g2", 11)]
    (by unfold TaskInv; decide)⟩

/-- Applying an updates record whose title and description are the
task's own values (as MarkTaskAsCompletedUseCase builds it) yields the
task with the supplied status, priority, category and due date and a
fresh `updatedAt`, whether or not the string guards fire. -/
theorem applyUpdates_all_some (t : Task) (st : TaskStatus) (p : TaskPriority)
    (c : Category) (dd now : Nat) :
    TaskService.applyUpdates t
      { setTitle := some t.title
        setDescription := some t.description
        setStatus := some st
        setPriority := some p
        setCategory := some c
        setDueDate := some dd } now =
      { id := t.id
        title := t.title
        description := t.description
        status := st
        priority := p
        dueDate := dd
        createdByUserId := t.createdByUserId
        category := c
        createdAt := t.createdAt
        updatedAt := now } := by
  unfold TaskService.applyUpdates
  by_cases h1 : (t.title == "") = true <;> by_cases h2 : (t.description == "") = true <;>
    simp [h1, h2, Task.setTitle, Task.setDescription, Task.setStatus, Task.setPriority,
      Task.setCategory, Task.setDueDate]

/-- Claim C1 (amended): marking a stored task as completed succeeds,
replaces only that task's document, sets its status to DONE, leaves
its title, description, priority, due date, category, owner id,
creation timestamp and id unchanged, and sets its `updatedAt` to the
time of the operation. (MongoDB ObjectIds are non-empty, stated as the
hypothesis on `id`.) -/
theorem markCompleted_frame (store : Store) (id genId : String) (now : Nat)
    (d : TaskDoc) (hfind : store.find? (fun x => x._id == id) = some d)
    (hid : id ≠ "") :
    ∃ d', MarkTaskAsCompletedUseCase.execute store id genId now =
        .ok (replaceFirstById store id d', MongoDBTaskRepository.mapToTask d') ∧
      d'.status = TaskStatus.DONE ∧
      d'.title = d.title ∧ d'.description = d.description ∧
      d'.priority = d.priority ∧ d'.dueDate = d.dueDate ∧
      d'.categoryName = d.categoryName ∧
      d'.categoryDescription = d.categoryDescription ∧
      d'.createdByUserId = d.createdByUserId ∧ d'._id = d._id ∧
      d'.createdAt = d.createdAt ∧ d'.updatedAt = now := by
  have hdid : d._id = id := by simpa using List.find?_some hfind
  have hById : MongoDBTaskRepository.findById store id =
      some (MongoDBTaskRepository.mapToTask d) := by
    unfold MongoDBTaskRepository.findById
    rw [hfind]
    rfl
  refine ⟨{ d with status := TaskStatus.DONE, updatedAt := now }, ?_, rfl, rfl, rfl,
    rfl, rfl, rfl, rfl, rfl, rfl, rfl, rfl⟩
  simp only [MarkTaskAsCompletedUseCase.execute, TaskService.getTaskById, hById,
    TaskService.updateTask, Task.setStatus]
  rw [applyUpdates_all_some]
  unfold MongoDBTaskRepository.save
  have hbne : (((MongoDBTaskRepository.mapToTask d).id : String) != "") = true := by
    simp only [MongoDBTaskRepository.mapToTask]
    rw [hdid]
    simpa using hid
  rw [if_pos hbne]
  have hfT : store.find? (fun x => x._id == (MongoDBTaskRepository.mapToTask d).id) =
      some d := by
    simp only [MongoDBTaskRepository.mapToTask]
    rw [hdid]
    exact hfind
  rw [hfT]
  simp only [MongoDBTaskRepository.mapToDocument, MongoDBTaskRepository.mapToTask]
  rw [← hdid]

/-- Counterexample to C1 as stated: marking `t1` (stored with
`updatedAt = 5`) as completed at time 10 rewrites its `updatedAt`
to 10, so the timestamps are not all left unchanged. -/
theorem markCompleted_changes_updatedAt :
    (MongoDBTaskRepository.findById demoStore "t1").map Task.updatedAt = some 5 ∧
    (MongoDBTaskRepository.findById
        (MarkTaskAsCompletedUseCase.run demoStore "t1" "g" 10) "t1").map
      Task.updatedAt = some 10 ∧
    (5 : Nat) ≠ 10 := by decide

/-- Witness for C1 (amended) at the demo store. -/
theorem markCompleted_frame_witness :
    (demoStore.find? (fun x => x._id == "t1") = some demoDoc1 ∧ "t1" ≠ "") ∧
    ∃ d', MarkTaskAsCompletedUseCase.execute demoStore "t1" "g" 10 =
        .ok (replaceFirstById demoStore "t1" d', MongoDBTaskRepository.mapToTask d') ∧
      d'.status = TaskStatus.DONE ∧
      d'.title = demoDoc1.title ∧ d'.description = demoDoc1.description ∧
      d'.priority = demoDoc1.priority ∧ d'.dueDate = demoDoc1.dueDate ∧
      d'.categoryName = demoDoc1.categoryName ∧
      d'.categoryDescription = demoDoc1.categoryDescription ∧
      d'.createdByUserId = demoDoc1.createdByUserId ∧ d'._id = demoDoc1._id ∧
      d'.createdAt = demoDoc1.createdAt ∧ d'.updatedAt = 10 :=
  ⟨⟨by decide, by decide⟩,
    markCompleted_frame demoStore "t1" "g" 10 demoDoc1 (by decide) (by decide)⟩

/-- Counterexample to C2 as stated: the delete endpoint's catch block
maps every thrown error to 500, so when deleting a missing task throws
exactly `Task not found` the controller responds 500, not 404. -/
theorem deleteTask_not_found_is_500 :
    TaskService.deleteTask ([] : Store) "i" = .error "Task not found" ∧
    (TaskController.deleteTask ([] : Store) "i").1 = 500 ∧ (500 : Nat) ≠ 404 := by
  decide

/-- Claim C2 (amended): only the mark-as-completed endpoint maps a
thrown `Task not found` to 404 (and any other thrown message to 500);
the delete endpoint maps every thrown error to 500, and the update
endpoint responds 404 only through its explicit pre-check when the
task id is absent, its catch block mapping every thrown error
to 400. -/
theorem controller_status_mapping (store : Store) (id genId : String)
    (u : TaskUpdates) (now : Nat) :
    (∀ msg, MarkTaskAsCompletedUseCase.execute store id genId now = .error msg →
      (TaskController.markTaskAsCompleted store id genId now).1 =
        if msg = "Task not found" then 404 else 500) ∧
    (∀ msg, TaskService.deleteTask store id = .error msg →
      (TaskController.deleteTask store id).1 = 500) ∧
    (MongoDBTaskRepository.findById store id = none →
      (TaskController.updateTask store id u genId now).1 = 404) := by
  refine ⟨?_, ?_, ?_⟩
  · intro msg hmsg
    unfold TaskController.markTaskAsCompleted
    rw [hmsg]
    by_cases he : msg = "Task not found" <;> simp [he]
  · intro msg hmsg
    unfold TaskController.deleteTask
    rw [hmsg]
  · intro hnone
    unfold TaskController.updateTask
    rw [hnone]

/-- Witness for C2 (amended) on the empty store: the
thrown-`Task not found` paths of mark-as-completed and delete, and
the update pre-check. -/
theorem controller_status_mapping_witness :
    (MarkTaskAsCompletedUseCase.execute ([] : Store) "i" "g" 0 =
        .error "Task not found" ∧
      (TaskController.markTaskAsCompleted ([] : Store) "i" "g" 0).1 = 404) ∧
    (TaskService.deleteTask ([] : Store) "i" = .error "Task not found" ∧
      (TaskController.deleteTask ([] : Store) "i").1 = 500) ∧
    (MongoDBTaskRepository.findById ([] : Store) "i" = none ∧
      (TaskController.updateTask ([] : Store) "i" {} "g" 0).1 = 404) := by
  refine ⟨⟨by decide, ?_⟩, ⟨by decide, ?_⟩, by decide, ?_⟩
  · have h := (controller_status_mapping ([] : Store) "i" "g" {} 0).1
      "Task not found" (by decide)
    simpa using h
  · exact (controller_status_mapping ([] : Store) "i" "g" {} 0).2.1
      "Task not found" (by decide)
  · exact (controller_status_mapping ([] : Store) "i" "g" {} 0).2.2 (by decide)

end TaskMgt
